import Mathlib

/-!
Membership-add latency harness (deploy/evaluation/add_performance.go).

A shallow embedding of `addPerformance`, `getAddMemberList` and the goroutine
bodies they start.  Go channels and the etcd client are external: every call
whose answer the code branches on (a status probe, a write, the state of a
gate at a `select`) is an input of the embedding, given in the order in which
the code asks for it.  Member IDs are `uint64` values that the code only
compares and copies, so they are natural numbers here.
-/

namespace AddPerformance

/-! ## Data model -/

/-- The two fields of a status response that the code reads:
`resp.Leader` and `resp.Header.MemberId`. -/
structure StatusResponse where
  Leader : Nat
  MemberId : Nat
deriving DecidableEq, Repr

/-- Go struct `add_query`: start timestamp and latency, both in microseconds. -/
structure add_query where
  Start : Int
  Latency : Int
deriving DecidableEq, Repr

/-- Go struct `addMeasure`. -/
structure addMeasure where
  AddEnter : Int
  AddLeave : Int
  LeaderElect : Int
deriving DecidableEq, Repr

/-- Go struct `add_observe`. -/
structure add_observe where
  Observe : Int
  Queries : List add_query
deriving DecidableEq, Repr

/-- Go struct `addReport`; the fields `Queries`, `Observes` and `Measures` are
commented out in the source, so the struct has the three fields below. -/
structure addReport where
  Start : Int
  Issue : Int
  Leader : addMeasure
deriving DecidableEq, Repr

/-- The ways in which the code under study panics. -/
inductive Panic where
  | statusFailed (ep : String) (err : String)
  | leaderNotSame (leaderId respLeader : Nat)
  | closeFailed (err : String)
  | leaderNotFound
  | nilDereference
deriving DecidableEq, Repr

/-! ## Discovery scan (lines 45-77) -/

/-- One pass of the inner loop body sees an endpoint of `cfg.Clusters`, what
`cli.Status` returned for it and what `cli.Close` returned afterwards. -/
structure Probe where
  ep : String
  status : Except String StatusResponse
  close : Option String

/-- The variables the scan updates. -/
structure ScanState where
  clusterIds : List (List Nat)
  leaderId : Nat
  leaderEp : String
  leaderClrIdx : Int
deriving DecidableEq, Repr

/-- Body of `for _, ep := range clr` (lines 52-70). -/
def scanEndpoint (idx : Nat) (st : ScanState) (p : Probe) : Except Panic ScanState :=
  match p.status with
  | .error err => .error (.statusFailed p.ep err)
  | .ok resp =>
    if st.leaderId ≠ 0 ∧ st.leaderId ≠ resp.Leader then
      .error (.leaderNotSame st.leaderId resp.Leader)
    else
      let leaderId := resp.Leader
      let st1 : ScanState :=
        if resp.MemberId = leaderId then
          { st with leaderId := leaderId, leaderEp := p.ep, leaderClrIdx := (idx : Int) }
        else
          { st with leaderId := leaderId }
      let st2 : ScanState :=
        { st1 with
          clusterIds := st1.clusterIds.set idx (st1.clusterIds.getD idx [] ++ [resp.MemberId]) }
      match p.close with
      | some err => .error (.closeFailed err)
      | none => .ok st2

/-- The loop `for _, ep := range clr`. -/
def scanCluster (idx : Nat) : ScanState → List Probe → Except Panic ScanState
  | st, [] => .ok st
  | st, p :: ps =>
    match scanEndpoint idx st p with
    | .error e => .error e
    | .ok st1 => scanCluster idx st1 ps

/-- The loop `for idx, clr := range cfg.Clusters`, entered at index `idx`. -/
def scanClusters : Nat → ScanState → List (List Probe) → Except Panic ScanState
  | _, st, [] => .ok st
  | idx, st, clr :: rest =>
    match scanCluster idx { st with clusterIds := st.clusterIds.set idx [] } clr with
    | .error e => .error e
    | .ok st1 => scanClusters (idx + 1) st1 rest

/-- State at line 48, before the scan. -/
def scanInit (n : Nat) : ScanState :=
  { clusterIds := List.replicate n [], leaderId := 0, leaderEp := "", leaderClrIdx := -1 }

/-- Lines 45-77: both loops and the final `leader not found` check. -/
def discoveryScan (clusters : List (List Probe)) : Except Panic ScanState :=
  match scanClusters 0 (scanInit clusters.length) clusters with
  | .error e => .error e
  | .ok st =>
    if st.leaderEp = "" ∨ st.leaderClrIdx = -1 then .error .leaderNotFound else .ok st

/-! ## Leader-change observer (lines 128-159) -/

/-- The loop `for _, id := range ids` with its `break`: the value of `found`. -/
def findLeader (leader : Nat) : List Nat → Bool
  | [] => false
  | id :: ids => if id = leader then true else findLeader leader ids

/-- What one pass of the polling loop leads to. -/
inductive PollOutcome where
  | spawnWorkers
  | terminate
  | pollAgain
  | crash (p : Panic)
deriving DecidableEq, Repr

/-- One pass of the polling loop (lines 137-158).  `resp` and `err` are the two
results of `cli.Status`; `resp` is a pointer, `none` being nil.  An error is
logged and execution falls through to `resp.Leader`. -/
def observerPoll (oldLeader : Nat) (ids : List Nat)
    (resp : Option StatusResponse) (err : Option String) : PollOutcome × List String :=
  let logs : List String :=
    match err with
    | some e => ["observe error: " ++ e]
    | none => []
  match resp with
  | none => (.crash .nilDereference, logs)
  | some r =>
    if r.Leader ≠ 0 ∧ r.Leader ≠ oldLeader then
      if findLeader r.Leader ids then
        if r.Leader = r.MemberId then (.spawnWorkers, logs) else (.terminate, logs)
      else (.pollAgain, logs)
    else (.pollAgain, logs)

/-- The polling loop over the successive results of `cli.Status`; `none` when
the given results end while the observer is still polling. -/
def observerLoop (oldLeader : Nat) (ids : List Nat) :
    List (Option StatusResponse × Option String) → Option PollOutcome
  | [] => none
  | (resp, err) :: rest =>
    match (observerPoll oldLeader ids resp err).1 with
    | .pollAgain => observerLoop oldLeader ids rest
    | out => some out

/-! ## Request workers (lines 88-118 and 162-180) -/

/-- Result of one `cli.Do` write: success with the start timestamp and the
elapsed time taken around it, or an error. -/
inductive WriteOutcome where
  | ok (start latency : Int)
  | err (msg : String)
deriving DecidableEq, Repr

/-- What a worker meets in one pass of its loop: whether `addDoneCh` is closed
when the first `select` runs, whether `stopCh` is closed when the second one
runs, and the result of the write if the pass reaches it. -/
structure Tick where
  addDone : Bool
  stop : Bool
  write : WriteOutcome
deriving DecidableEq, Repr

/-- The key `fmt.Sprintf("thread-%v-%v", tidx, qidx)` for non-negative ints. -/
def threadKey (tidx qidx : Nat) : String :=
  "thread-" ++ toString tidx ++ "-" ++ toString qidx

/-- The key `fmt.Sprintf("observer-%v-%v", tidx, qidx)` for non-negative ints. -/
def observerKey (tidx qidx : Nat) : String :=
  "observer-" ++ toString tidx ++ "-" ++ toString qidx

/-- Where a worker stands after the passes it was given: it sent its buffer on
its channel and returned, or it is still in its loop.  `keys` are the keys of
the writes it issued, oldest first. -/
inductive WorkerResult where
  | handoff (queries : List add_query) (keys : List String)
  | running (qidx : Nat) (queries : List add_query) (keys : List String)
deriving DecidableEq, Repr

/-- The loop of a requester (lines 93-116) from the state `qidx`, `queries`.
A `select` with a `default` case takes the channel case exactly when the
channel is closed. -/
def requesterLoop (threads tidx : Nat) :
    Nat → List add_query → List String → List Tick → WorkerResult
  | qidx, queries, keys, [] => .running qidx queries keys
  | qidx, queries, keys, t :: ts =>
    if threads ≤ tidx ∧ t.addDone = true then .handoff queries keys
    else if t.stop = true then .handoff queries keys
    else
      match t.write with
      | .err _ => requesterLoop threads tidx (qidx + 1) queries (keys ++ [threadKey tidx qidx]) ts
      | .ok s l =>
        requesterLoop threads tidx (qidx + 1) (queries ++ [⟨s, l⟩])
          (keys ++ [threadKey tidx qidx]) ts

/-- A requester goroutine after `<-startQuery` (lines 92-116). -/
def requester (threads tidx : Nat) (ticks : List Tick) : WorkerResult :=
  requesterLoop threads tidx 0 [] [] ticks

/-- The loop of a worker of an observer (lines 165-179); it has no
`addDoneCh` check. -/
def observerWorkerLoop (tidx : Nat) :
    Nat → List add_query → List String → List Tick → WorkerResult
  | qidx, queries, keys, [] => .running qidx queries keys
  | qidx, queries, keys, t :: ts =>
    if t.stop = true then .handoff queries keys
    else
      match t.write with
      | .err _ => observerWorkerLoop tidx (qidx + 1) queries (keys ++ [observerKey tidx qidx]) ts
      | .ok s l =>
        observerWorkerLoop tidx (qidx + 1) (queries ++ [⟨s, l⟩])
          (keys ++ [observerKey tidx qidx]) ts

/-- A worker goroutine of an observer (lines 164-179). -/
def observerWorker (tidx : Nat) (ticks : List Tick) : WorkerResult :=
  observerWorkerLoop tidx 0 [] [] ticks

/-! ## Spawning (lines 88-190) -/

/-- The requester indices of `for i := 0; i < int(cfg.Threads)*len(cfg.Clusters); i++`. -/
def spawnRequesters (threads nClusters : Nat) : List Nat :=
  List.range (threads * nClusters)

/-- The arguments an observer goroutine is started with (line 188). -/
structure ObserverArgs where
  ep : String
  oldLeader : Nat
  clrIdx : Nat
  ids : List Nat
deriving DecidableEq, Repr

/-- The loop of lines 123-190, entered at index `idx`: the observers started,
in order. -/
def spawnObserversFrom (leaderClrIdx : Int) (leaderId : Nat) (clusterIds : List (List Nat)) :
    Nat → List (List String) → List ObserverArgs
  | _, [] => []
  | idx, clr :: rest =>
    if (idx : Int) = leaderClrIdx then
      spawnObserversFrom leaderClrIdx leaderId clusterIds (idx + 1) rest
    else
      clr.map (fun ep => ObserverArgs.mk ep leaderId idx (clusterIds.getD idx []))
        ++ spawnObserversFrom leaderClrIdx leaderId clusterIds (idx + 1) rest

/-- The observers started by lines 123-190. -/
def spawnObservers (leaderClrIdx : Int) (leaderId : Nat) (clusterIds : List (List Nat))
    (clusters : List (List String)) : List ObserverArgs :=
  spawnObserversFrom leaderClrIdx leaderId clusterIds 0 clusters

/-- Lines 45-190: the scan, then the goroutines started.  A panic in the scan
ends the process, so nothing is started. -/
def spawnPhase (threads : Nat) (clusters : List (List Probe)) :
    Except Panic (List Nat × List ObserverArgs) :=
  match discoveryScan clusters with
  | .error e => .error e
  | .ok st =>
    .ok (spawnRequesters threads clusters.length,
      spawnObservers st.leaderClrIdx st.leaderId st.clusterIds
        (clusters.map (fun clr => clr.map Probe.ep)))

/-! ## Report and member list (lines 214-279) -/

/-- Lines 215-220: the buffers received on `queryCh`, appended in order. -/
def fetchQueries : List (List add_query) → List add_query
  | [] => []
  | qs :: rest => qs ++ fetchQueries rest

/-- The value passed to `json.Marshal` (lines 251-253): only `Start` and
`Issue` are set, `Leader` keeps its zero value. -/
def buildReport (start issue : Int) (_leaderMeasure : addMeasure)
    (_queries : List add_query) (_observes : List add_observe) : addReport :=
  { Start := start, Issue := issue, Leader := ⟨0, 0, 0⟩ }

/-- Go struct `etcdserverpb.Member`, of which only `ID` is set. -/
structure Member where
  ID : Nat
deriving DecidableEq, Repr

/-- Lines 269-279: `mems` is built for every cluster and dropped, the line
appending to `clrs` being commented out. -/
def getAddMemberList (clusters : List (List Nat)) : List String :=
  clusters.foldl
    (fun clrs clr =>
      let _mems : List Member := clr.foldl (fun mems id => mems ++ [Member.mk id]) []
      clrs)
    ["http:192.168.0.101:2380"]

/-! ## Auxiliary functions used to state the results -/

/-- The samples of the successful writes among the given passes, in order. -/
def samplesOf : List Tick → List add_query
  | [] => []
  | t :: ts =>
    match t.write with
    | .ok s l => ⟨s, l⟩ :: samplesOf ts
    | .err _ => samplesOf ts

/-- The number of failed writes among the given passes. -/
def failuresOf : List Tick → Nat
  | [] => 0
  | t :: ts =>
    match t.write with
    | .ok _ _ => failuresOf ts
    | .err _ => failuresOf ts + 1

/-- Whether both `cli.Status` and `cli.Close` returned without error. -/
def Probe.succeeded (p : Probe) : Bool :=
  match p.status, p.close with
  | .ok _, none => true
  | _, _ => false

/-- The scan state names a probed endpoint of the cluster at `leaderClrIdx`
whose reply gave the final `leaderId` both as leader and as its own member
ID. -/
def LeaderProbed (clusters : List (List Probe)) (st : ScanState) : Prop :=
  ∃ (k : Nat) (clr : List Probe) (p : Probe) (r : StatusResponse),
    st.leaderClrIdx = (k : Int) ∧ clusters[k]? = some clr ∧ p ∈ clr ∧
    p.ep = st.leaderEp ∧ p.status = .ok r ∧ r.MemberId = st.leaderId ∧ r.Leader = st.leaderId

/-- Digits of `n` in base ten, most significant first. -/
def decimalDigits (n : Nat) : List Char :=
  if n < 10 then [Nat.digitChar n] else decimalDigits (n / 10) ++ [Nat.digitChar (n % 10)]
decreasing_by omega

/-- The value of a decimal digit character. -/
def digitVal (c : Char) : Nat := c.toNat - 48

/-- The number a list of decimal digits stands for. -/
def decimalValue (l : List Char) : Nat := l.foldl (fun acc c => acc * 10 + digitVal c) 0

end AddPerformance

/-! ## Theorems -/

namespace AddPerformance

/-! ### Observer poll -/

theorem findLeader_iff (leader : Nat) (ids : List Nat) :
    findLeader leader ids = true ↔ leader ∈ ids := by
  induction ids with
  | nil => simp [findLeader]
  | cons id ids ih =>
    by_cases h : id = leader
    · simp [findLeader, h]
    · have h2 : ¬ leader = id := fun e => h e.symm
      simp [findLeader, h, h2, ih]

/-- C3: for a successful status reply `(leader, self)` the observer spawns its
workers iff leader is non-zero, differs from `oldLeader`, occurs in `ids` and
equals self; it terminates iff the first three hold and leader differs from
self; otherwise it polls again; a leader absent from `ids` gives neither. -/
theorem observerPoll_decision (oldLeader : Nat) (ids : List Nat) (leader self : Nat) :
    ((observerPoll oldLeader ids (some ⟨leader, self⟩) none).1 = .spawnWorkers ↔
        (leader ≠ 0 ∧ leader ≠ oldLeader ∧ leader ∈ ids ∧ leader = self)) ∧
    ((observerPoll oldLeader ids (some ⟨leader, self⟩) none).1 = .terminate ↔
        (leader ≠ 0 ∧ leader ≠ oldLeader ∧ leader ∈ ids ∧ leader ≠ self)) ∧
    (¬ (leader ≠ 0 ∧ leader ≠ oldLeader ∧ leader ∈ ids) →
        (observerPoll oldLeader ids (some ⟨leader, self⟩) none).1 = .pollAgain) ∧
    (leader ∉ ids →
        (observerPoll oldLeader ids (some ⟨leader, self⟩) none).1 ≠ .spawnWorkers ∧
        (observerPoll oldLeader ids (some ⟨leader, self⟩) none).1 ≠ .terminate) := by
  have hf := findLeader_iff leader ids
  by_cases h0 : leader = 0 <;> by_cases h1 : leader = oldLeader <;>
    by_cases h2 : leader ∈ ids <;> by_cases h3 : leader = self <;>
    simp [observerPoll, h0, h1, h2, h3, hf] <;> simp_all

/-- C7: a poll that returns an error and no reply logs the error and then
dereferences the nil reply: the outcome is a crash, not another poll. -/
theorem observerPoll_error_crashes (oldLeader : Nat) (ids : List Nat) (e : String) :
    observerPoll oldLeader ids none (some e) =
      (.crash .nilDereference, ["observe error: " ++ e]) ∧
    (observerPoll oldLeader ids none (some e)).1 ≠ .pollAgain := by
  simp [observerPoll]

/-! ### Report and member list -/

/-- C5 (as stated, refuted): two runs that differ in the leader-side
measurement, in the samples and in the observations pass the same value to
`json.Marshal`, so none of the three can be read back from it. -/
theorem buildReport_drops_inputs :
    buildReport 10 20 ⟨1, 2, 3⟩ (fetchQueries [[⟨11, 5⟩], [⟨12, 6⟩]]) [⟨30, [⟨31, 4⟩]⟩] =
      buildReport 10 20 ⟨0, 0, 0⟩ (fetchQueries []) [] ∧
    (⟨1, 2, 3⟩ : addMeasure) ≠ ⟨0, 0, 0⟩ ∧
    fetchQueries [[⟨11, 5⟩], [⟨12, 6⟩]] ≠ fetchQueries [] ∧
    ([⟨30, [⟨31, 4⟩]⟩] : List add_observe) ≠ [] := by
  refine ⟨rfl, by decide, by decide, by decide⟩

/-- C5 (amended): the report carries the experiment start and the issue
timestamps, and it is the same whatever samples and observations were
collected. -/
theorem buildReport_start_issue (start issue : Int) (m : addMeasure)
    (queries queries2 : List add_query) (observes observes2 : List add_observe) :
    (buildReport start issue m queries observes).Start = start ∧
    (buildReport start issue m queries observes).Issue = issue ∧
    buildReport start issue m queries2 observes2 = buildReport start issue m queries observes := by
  refine ⟨rfl, rfl, rfl⟩

/-- C6 (as stated, refuted): two cluster lists with different member IDs give
the same member list. -/
theorem getAddMemberList_not_injective :
    getAddMemberList [[1, 2], [3]] = getAddMemberList [[4]] ∧
    (1 ∈ ([[1, 2], [3]] : List (List Nat)).flatten ∧ 1 ∉ ([[4]] : List (List Nat)).flatten) := by
  refine ⟨rfl, by decide, by decide⟩

/-- C6 (amended): for every list of clusters the member list passed to the
reconfiguration call is the one fixed peer address. -/
theorem getAddMemberList_const (clusters : List (List Nat)) :
    getAddMemberList clusters = ["http:192.168.0.101:2380"] := by
  unfold getAddMemberList
  induction clusters with
  | nil => rfl
  | cons clr rest ih => simp [List.foldl]

/-! ### Observers spawned -/

theorem spawnObserversFrom_clrIdx (leaderClrIdx : Int) (leaderId : Nat)
    (clusterIds : List (List Nat)) (clusters : List (List String)) :
    ∀ start, ∀ o ∈ spawnObserversFrom leaderClrIdx leaderId clusterIds start clusters,
      start ≤ o.clrIdx ∧ (o.clrIdx : Int) ≠ leaderClrIdx := by
  induction clusters with
  | nil => intro start o ho; simp [spawnObserversFrom] at ho
  | cons clr rest ih =>
    intro start o ho
    unfold spawnObserversFrom at ho
    by_cases h : (start : Int) = leaderClrIdx
    · rw [if_pos h] at ho
      have := ih (start + 1) o ho
      exact ⟨by omega, this.2⟩
    · rw [if_neg h] at ho
      rcases List.mem_append.mp ho with h1 | h1
      · obtain ⟨ep, _, rfl⟩ := List.mem_map.mp h1
        exact ⟨le_refl _, h⟩
      · have := ih (start + 1) o h1
        exact ⟨by omega, this.2⟩

theorem spawnObserversFrom_filter (leaderClrIdx : Int) (leaderId : Nat)
    (clusterIds : List (List Nat)) (clusters : List (List String)) :
    ∀ start idx : Nat, start ≤ idx → (idx : Int) ≠ leaderClrIdx →
      ((spawnObserversFrom leaderClrIdx leaderId clusterIds start clusters).filter
        (fun o => o.clrIdx = idx)).map ObserverArgs.ep = clusters.getD (idx - start) [] := by
  induction clusters with
  | nil => intro start idx _ _; simp [spawnObserversFrom]
  | cons clr rest ih =>
    intro start idx hle hne
    have hrest : ∀ o ∈ spawnObserversFrom leaderClrIdx leaderId clusterIds (start + 1) rest,
        start + 1 ≤ o.clrIdx := fun o ho =>
      (spawnObserversFrom_clrIdx leaderClrIdx leaderId clusterIds rest (start + 1) o ho).1
    unfold spawnObserversFrom
    by_cases h : (start : Int) = leaderClrIdx
    · rw [if_pos h]
      have hlt : start + 1 ≤ idx := by
        rcases Nat.lt_or_ge start idx with h1 | h1
        · exact h1
        · exfalso; apply hne; rw [← h]; congr 1; omega
      rw [ih (start + 1) idx hlt hne]
      have : idx - start = (idx - (start + 1)) + 1 := by omega
      rw [this]; simp [List.getD_cons_succ]
    · rw [if_neg h, List.filter_append, List.map_append]
      by_cases he : idx = start
      · subst he
        have h2 : (spawnObserversFrom leaderClrIdx leaderId clusterIds (idx + 1) rest).filter
            (fun o => o.clrIdx = idx) = [] := by
          rw [List.filter_eq_nil_iff]
          intro o ho
          have := hrest o ho
          simp; omega
        rw [h2]
        simp [List.filter_map, Function.comp_def]
      · have hlt : start + 1 ≤ idx := by omega
        rw [ih (start + 1) idx hlt hne]
        have h2 : (List.map (fun ep => ObserverArgs.mk ep leaderId start
            (clusterIds.getD start [])) clr).filter (fun o => o.clrIdx = idx) = [] := by
          rw [List.filter_eq_nil_iff]
          intro o ho
          obtain ⟨ep, _, rfl⟩ := List.mem_map.mp ho
          simp; omega
        rw [h2]
        have : idx - start = (idx - (start + 1)) + 1 := by omega
        rw [this]; simp [List.getD_cons_succ]

/-- C9: the observers started are one per endpoint of each cluster whose index
differs from `leaderClrIdx`, in the order of the cluster's endpoints, and none
belongs to the cluster at `leaderClrIdx`. -/
theorem observers_only_secondary (leaderClrIdx : Int) (leaderId : Nat)
    (clusterIds : List (List Nat)) (clusters : List (List String)) :
    (∀ o ∈ spawnObservers leaderClrIdx leaderId clusterIds clusters,
      (o.clrIdx : Int) ≠ leaderClrIdx) ∧
    (∀ idx : Nat, (idx : Int) ≠ leaderClrIdx →
      ((spawnObservers leaderClrIdx leaderId clusterIds clusters).filter
        (fun o => o.clrIdx = idx)).map ObserverArgs.ep = clusters.getD idx []) ∧
    (spawnObservers leaderClrIdx leaderId clusterIds clusters).filter
      (fun o => (o.clrIdx : Int) = leaderClrIdx) = [] := by
  have h1 := spawnObserversFrom_clrIdx leaderClrIdx leaderId clusterIds clusters 0
  refine ⟨fun o ho => (h1 o ho).2, ?_, ?_⟩
  · intro idx hne
    have := spawnObserversFrom_filter leaderClrIdx leaderId clusterIds clusters 0 idx
      (Nat.zero_le _) hne
    simpa [spawnObservers] using this
  · rw [List.filter_eq_nil_iff]
    intro o ho
    have := (h1 o ho).2
    simpa using this

/-! ### Decimal formatting and write keys -/

theorem toDigitsCore_eq (f : Nat) : ∀ (n : Nat) (ds : List Char), n < f →
    Nat.toDigitsCore 10 f n ds = decimalDigits n ++ ds := by
  induction f with
  | zero => intro n ds h; omega
  | succ f ih =>
    intro n ds h
    unfold Nat.toDigitsCore
    by_cases h0 : n / 10 = 0
    · have hn : n < 10 := by omega
      have hm : n % 10 = n := Nat.mod_eq_of_lt hn
      rw [decimalDigits]
      simp [h0, hn, hm]
    · have hn : ¬ n < 10 := by omega
      rw [decimalDigits]
      simp only [h0, hn, if_false]
      rw [ih (n / 10) _ (by omega)]
      simp

theorem toString_data (n : Nat) : (toString n).data = decimalDigits n := by
  show (Nat.repr n).data = _
  unfold Nat.repr Nat.toDigits
  rw [toDigitsCore_eq _ _ _ (Nat.lt_succ_self n)]
  simp [List.asString]

theorem digitVal_digitChar (k : Nat) (h : k < 10) : digitVal (Nat.digitChar k) = k := by
  interval_cases k <;> rfl

theorem digitChar_ne_dash (k : Nat) (h : k < 10) : Nat.digitChar k ≠ '-' := by
  interval_cases k <;> decide

theorem decimalValue_digits (n : Nat) : decimalValue (decimalDigits n) = n := by
  induction n using Nat.strong_induction_on with
  | _ n ih =>
    rw [decimalDigits]
    by_cases hn : n < 10
    · simp [hn, decimalValue, digitVal_digitChar n hn]
    · simp only [hn, if_false]
      have := ih (n / 10) (by omega)
      unfold decimalValue at this ⊢
      rw [List.foldl_append, this]
      simp [digitVal_digitChar (n % 10) (Nat.mod_lt _ (by norm_num))]
      omega

theorem dash_not_mem_digits (n : Nat) : '-' ∉ decimalDigits n := by
  induction n using Nat.strong_induction_on with
  | _ n ih =>
    rw [decimalDigits]
    by_cases hn : n < 10
    · simp [hn]
      exact fun h => digitChar_ne_dash n hn h.symm
    · simp only [hn, if_false]
      have := ih (n / 10) (by omega)
      simp [this]
      exact fun h => digitChar_ne_dash (n % 10) (Nat.mod_lt _ (by norm_num)) h.symm

theorem append_dash_inj {a b c d : List Char} (ha : '-' ∉ a) (hc : '-' ∉ c)
    (h : a ++ '-' :: b = c ++ '-' :: d) : a = c ∧ b = d := by
  induction a generalizing c with
  | nil =>
    cases c with
    | nil => simpa using h
    | cons x c => simp at h hc; exact absurd h.1 hc.1
  | cons x a ih =>
    cases c with
    | nil => simp at h ha; exact absurd h.1.symm ha.1
    | cons y c =>
      simp at h ha hc
      obtain ⟨h1, h2⟩ := ih ha.2 hc.2 h.2
      exact ⟨by simp [h.1, h1], h2⟩

theorem toString_inj {a b : Nat} (h : (toString a).data = (toString b).data) : a = b := by
  rw [toString_data, toString_data] at h
  have := congrArg decimalValue h
  simpa [decimalValue_digits] using this

theorem key_inj (pre : String) {a b c d : Nat}
    (h : pre ++ toString a ++ "-" ++ toString b = pre ++ toString c ++ "-" ++ toString d) :
    a = c ∧ b = d := by
  have h1 := congrArg String.data h
  simp only [String.data_append, List.append_assoc] at h1
  have h2 := List.append_cancel_left h1
  simp only [List.singleton_append] at h2
  have ha : '-' ∉ (toString a).data := by rw [toString_data]; exact dash_not_mem_digits a
  have hc : '-' ∉ (toString c).data := by rw [toString_data]; exact dash_not_mem_digits c
  obtain ⟨e1, e2⟩ := append_dash_inj ha hc h2
  exact ⟨toString_inj e1, toString_inj e2⟩

/-! ### Request workers -/

theorem samplesOf_length (ticks : List Tick) :
    (samplesOf ticks).length + failuresOf ticks = ticks.length := by
  induction ticks with
  | nil => rfl
  | cons t ts ih =>
    cases hw : t.write with
    | ok s l => simp [samplesOf, failuresOf, hw]; omega
    | err m => simp [samplesOf, failuresOf, hw]; omega

theorem requesterLoop_passes (threads tidx : Nat) (ticks : List Tick) :
    ∀ (qidx : Nat) (queries : List add_query) (keys : List String) (rest : List Tick),
    (∀ t ∈ ticks, t.stop = false ∧ (threads ≤ tidx → t.addDone = false)) →
    requesterLoop threads tidx qidx queries keys (ticks ++ rest) =
      requesterLoop threads tidx (qidx + ticks.length) (queries ++ samplesOf ticks)
        (keys ++ (List.range' qidx ticks.length).map (threadKey tidx)) rest := by
  induction ticks with
  | nil => intro qidx queries keys rest _; simp [samplesOf]
  | cons t ts ih =>
    intro qidx queries keys rest h
    have ht := h t (List.mem_cons_self _ _)
    have hts : ∀ u ∈ ts, u.stop = false ∧ (threads ≤ tidx → u.addDone = false) :=
      fun u hu => h u (List.mem_cons_of_mem _ hu)
    have hgate : ¬ (threads ≤ tidx ∧ t.addDone = true) := by
      rintro ⟨h1, h2⟩
      rw [ht.2 h1] at h2
      exact Bool.noConfusion h2
    have hstop : ¬ (t.stop = true) := by rw [ht.1]; exact Bool.noConfusion
    rw [List.cons_append, requesterLoop, if_neg hgate, if_neg hstop]
    cases hw : t.write with
    | ok s l =>
      simp only []
      rw [ih (qidx + 1) _ _ rest hts]
      simp [samplesOf, hw, List.range'_succ, Nat.add_assoc, Nat.add_comm 1]
    | err m =>
      simp only []
      rw [ih (qidx + 1) _ _ rest hts]
      simp [samplesOf, hw, List.range'_succ, Nat.add_assoc, Nat.add_comm 1]

theorem observerWorkerLoop_passes (tidx : Nat) (ticks : List Tick) :
    ∀ (qidx : Nat) (queries : List add_query) (keys : List String) (rest : List Tick),
    (∀ t ∈ ticks, t.stop = false) →
    observerWorkerLoop tidx qidx queries keys (ticks ++ rest) =
      observerWorkerLoop tidx (qidx + ticks.length) (queries ++ samplesOf ticks)
        (keys ++ (List.range' qidx ticks.length).map (observerKey tidx)) rest := by
  induction ticks with
  | nil => intro qidx queries keys rest _; simp [samplesOf]
  | cons t ts ih =>
    intro qidx queries keys rest h
    have ht := h t (List.mem_cons_self _ _)
    have hts : ∀ u ∈ ts, u.stop = false := fun u hu => h u (List.mem_cons_of_mem _ hu)
    have hstop : ¬ (t.stop = true) := by rw [ht]; exact Bool.noConfusion
    rw [List.cons_append, observerWorkerLoop, if_neg hstop]
    cases hw : t.write with
    | ok s l =>
      simp only []
      rw [ih (qidx + 1) _ _ rest hts]
      simp [samplesOf, hw, List.range'_succ, Nat.add_assoc, Nat.add_comm 1]
    | err m =>
      simp only []
      rw [ih (qidx + 1) _ _ rest hts]
      simp [samplesOf, hw, List.range'_succ, Nat.add_assoc, Nat.add_comm 1]

theorem requester_running (threads tidx : Nat) (ticks : List Tick)
    (hpass : ∀ t ∈ ticks, t.stop = false ∧ (threads ≤ tidx → t.addDone = false)) :
    requester threads tidx ticks =
      .running ticks.length (samplesOf ticks) ((List.range ticks.length).map (threadKey tidx)) := by
  have h := requesterLoop_passes threads tidx ticks 0 [] [] [] hpass
  simp only [List.append_nil, Nat.zero_add, List.nil_append] at h
  rw [requester, h, requesterLoop, List.range_eq_range']

theorem requester_exit (threads tidx : Nat) (ticks : List Tick) (last : Tick) (rest : List Tick)
    (hpass : ∀ t ∈ ticks, t.stop = false ∧ (threads ≤ tidx → t.addDone = false))
    (hlast : last.stop = true ∨ (threads ≤ tidx ∧ last.addDone = true)) :
    requester threads tidx (ticks ++ last :: rest) =
      .handoff (samplesOf ticks) ((List.range ticks.length).map (threadKey tidx)) := by
  have h := requesterLoop_passes threads tidx ticks 0 [] [] (last :: rest) hpass
  simp only [Nat.zero_add, List.nil_append] at h
  rw [requester, h, requesterLoop, List.range_eq_range']
  by_cases hg : threads ≤ tidx ∧ last.addDone = true
  · rw [if_pos hg]
  · rw [if_neg hg]
    rcases hlast with h1 | h1
    · rw [if_pos h1]
    · exact absurd h1 hg

/-- C4: a requester that gets through the passes `ticks` and then sees the
stop gate released is still in its loop after `ticks` (a failed write does not
end it) and hands off the samples of the successful writes only: the buffer
has as many samples as there were attempts minus failures. -/
theorem requester_buffer_counts_successes (threads tidx : Nat) (ticks : List Tick)
    (last : Tick) (rest : List Tick)
    (hpass : ∀ t ∈ ticks, t.stop = false ∧ (threads ≤ tidx → t.addDone = false))
    (hstop : last.stop = true) :
    requester threads tidx ticks =
      .running ticks.length (samplesOf ticks) ((List.range ticks.length).map (threadKey tidx)) ∧
    requester threads tidx (ticks ++ last :: rest) =
      .handoff (samplesOf ticks) ((List.range ticks.length).map (threadKey tidx)) ∧
    (samplesOf ticks).length = ticks.length - failuresOf ticks := by
  refine ⟨requester_running threads tidx ticks hpass,
    requester_exit threads tidx ticks last rest hpass (Or.inl hstop), ?_⟩
  have := samplesOf_length ticks
  omega

/-- C4 at one failure followed by one success: the buffer handed off has
length one. -/
theorem requester_buffer_counts_successes_witness :
    requester 2 0 [⟨false, false, .err "timeout"⟩, ⟨true, false, .ok 100 7⟩,
        ⟨true, true, .ok 0 0⟩] =
      .handoff [⟨100, 7⟩] ["thread-0-0", "thread-0-1"] ∧
    (samplesOf [⟨false, false, .err "timeout"⟩, ⟨true, false, .ok 100 7⟩]).length = 2 - 1 := by
  have h := requester_buffer_counts_successes 2 0
    [⟨false, false, .err "timeout"⟩, ⟨true, false, .ok 100 7⟩] ⟨true, true, .ok 0 0⟩ []
    (by decide) rfl
  exact ⟨h.2.1, h.2.2⟩

/-- C8 (as stated, refuted): with one thread and two clusters the requester
with index 1 hands off its buffer at a pass where the issued gate is released
and the stop gate is not. -/
theorem requester_secondary_stops_on_issued :
    1 ∈ spawnRequesters 1 2 ∧
    requester 1 1 [⟨false, false, .ok 100 7⟩, ⟨true, false, .ok 200 7⟩] =
      .handoff [⟨100, 7⟩] ["thread-1-0"] := by
  refine ⟨by decide, by decide⟩

/-- C8 (amended): while the stop gate is unreleased, a requester with
`tidx < threads` stays in its loop whatever the issued gate is, and a
requester with `threads ≤ tidx` stays in its loop until the first pass at
which it sees the issued gate released, where it hands off its buffer. -/
theorem requester_gate_contract (threads tidx : Nat) (ticks : List Tick) (t : Tick)
    (rest : List Tick) (hstop : ∀ u ∈ ticks, u.stop = false) :
    (tidx < threads →
      requester threads tidx ticks =
        .running ticks.length (samplesOf ticks)
          ((List.range ticks.length).map (threadKey tidx))) ∧
    (threads ≤ tidx → (∀ u ∈ ticks, u.addDone = false) →
      requester threads tidx ticks =
        .running ticks.length (samplesOf ticks)
          ((List.range ticks.length).map (threadKey tidx)) ∧
      (t.addDone = true →
        requester threads tidx (ticks ++ t :: rest) =
          .handoff (samplesOf ticks) ((List.range ticks.length).map (threadKey tidx)))) := by
  refine ⟨fun hlt => ?_, fun hle hadd => ⟨?_, fun ht => ?_⟩⟩
  · exact requester_running threads tidx ticks
      (fun u hu => ⟨hstop u hu, fun h => absurd h (by omega)⟩)
  · exact requester_running threads tidx ticks (fun u hu => ⟨hstop u hu, fun _ => hadd u hu⟩)
  · exact requester_exit threads tidx ticks t rest
      (fun u hu => ⟨hstop u hu, fun _ => hadd u hu⟩) (Or.inr ⟨hle, ht⟩)

/-- C8 (amended) at one thread and two clusters: requester 0 keeps writing
after the issued gate is released, requester 1 hands off at that pass. -/
theorem requester_gate_contract_witness :
    requester 1 0 [⟨false, false, .ok 100 7⟩, ⟨true, false, .ok 200 7⟩] =
      .running 2 [⟨100, 7⟩, ⟨200, 7⟩] ["thread-0-0", "thread-0-1"] ∧
    requester 1 1 ([⟨false, false, .ok 100 7⟩] ++ [⟨true, false, .ok 200 7⟩]) =
      .handoff [⟨100, 7⟩] ["thread-1-0"] := by
  refine ⟨?_, ?_⟩
  · exact (requester_gate_contract 1 0
      [⟨false, false, .ok 100 7⟩, ⟨true, false, .ok 200 7⟩] ⟨true, false, .ok 0 0⟩ []
      (by decide)).1 (by decide)
  · exact ((requester_gate_contract 1 1 [⟨false, false, .ok 100 7⟩]
      ⟨true, false, .ok 200 7⟩ [] (by decide)).2 (by decide) (by decide)).2 rfl

/-- C10: the key formats are injective on pairs of naturals, and the k-th
attempt of a worker, failed or not, uses `qidx = k`: the keys a worker has
used after its passes are the keys of 0, 1, ... in order, without repetition,
and keys of different workers of a pool or of different attempts differ. -/
theorem write_keys_distinct :
    (∀ a b c d : Nat, threadKey a b = threadKey c d ↔ a = c ∧ b = d) ∧
    (∀ a b c d : Nat, observerKey a b = observerKey c d ↔ a = c ∧ b = d) ∧
    (∀ (threads tidx : Nat) (ticks : List Tick),
      (∀ t ∈ ticks, t.stop = false ∧ (threads ≤ tidx → t.addDone = false)) →
      requester threads tidx ticks =
        .running ticks.length (samplesOf ticks)
          ((List.range ticks.length).map (threadKey tidx))) ∧
    (∀ (tidx : Nat) (ticks : List Tick), (∀ t ∈ ticks, t.stop = false) →
      observerWorker tidx ticks =
        .running ticks.length (samplesOf ticks)
          ((List.range ticks.length).map (observerKey tidx))) ∧
    (∀ tidx n : Nat, ((List.range n).map (threadKey tidx)).Nodup ∧
      ((List.range n).map (observerKey tidx)).Nodup) ∧
    (∀ t1 t2 n1 n2 : Nat, t1 ≠ t2 →
      List.Disjoint ((List.range n1).map (threadKey t1)) ((List.range n2).map (threadKey t2)) ∧
      List.Disjoint ((List.range n1).map (observerKey t1))
        ((List.range n2).map (observerKey t2))) := by
  have hT : ∀ a b c d : Nat, threadKey a b = threadKey c d ↔ a = c ∧ b = d := by
    intro a b c d
    constructor
    · exact fun h => key_inj "thread-" h
    · rintro ⟨rfl, rfl⟩; rfl
  have hO : ∀ a b c d : Nat, observerKey a b = observerKey c d ↔ a = c ∧ b = d := by
    intro a b c d
    constructor
    · exact fun h => key_inj "observer-" h
    · rintro ⟨rfl, rfl⟩; rfl
  refine ⟨hT, hO, requester_running, ?_, ?_, ?_⟩
  · intro tidx ticks hpass
    have h := observerWorkerLoop_passes tidx ticks 0 [] [] [] hpass
    simp only [List.append_nil, Nat.zero_add, List.nil_append] at h
    rw [observerWorker, h, observerWorkerLoop, List.range_eq_range']
  · intro tidx n
    constructor
    · exact List.Nodup.map (fun x y h => ((hT tidx x tidx y).mp h).2) (List.nodup_range n)
    · exact List.Nodup.map (fun x y h => ((hO tidx x tidx y).mp h).2) (List.nodup_range n)
  · intro t1 t2 n1 n2 hne
    constructor
    · intro k h1 h2
      obtain ⟨x, _, rfl⟩ := List.mem_map.mp h1
      obtain ⟨y, _, hy⟩ := List.mem_map.mp h2
      exact hne ((hT t2 y t1 x).mp hy).1.symm
    · intro k h1 h2
      obtain ⟨x, _, rfl⟩ := List.mem_map.mp h1
      obtain ⟨y, _, hy⟩ := List.mem_map.mp h2
      exact hne ((hO t2 y t1 x).mp hy).1.symm

/-! ### Discovery scan -/

theorem scanEndpoint_ok {idx : Nat} {st st1 : ScanState} {p : Probe}
    (h : scanEndpoint idx st p = .ok st1) :
    ∃ r, p.status = .ok r ∧ p.close = none ∧ (st.leaderId = 0 ∨ st.leaderId = r.Leader) ∧
      st1.leaderId = r.Leader ∧
      ((r.MemberId = r.Leader ∧ st1.leaderEp = p.ep ∧ st1.leaderClrIdx = (idx : Int)) ∨
        (r.MemberId ≠ r.Leader ∧ st1.leaderEp = st.leaderEp ∧
          st1.leaderClrIdx = st.leaderClrIdx)) := by
  unfold scanEndpoint at h
  cases hs : p.status with
  | error e => rw [hs] at h; simp at h
  | ok r =>
    rw [hs] at h
    simp only [] at h
    by_cases hc : st.leaderId ≠ 0 ∧ st.leaderId ≠ r.Leader
    · rw [if_pos hc] at h; simp at h
    · rw [if_neg hc] at h
      cases hcl : p.close with
      | some e => rw [hcl] at h; simp at h
      | none =>
        rw [hcl] at h
        simp only [Except.ok.injEq] at h
        refine ⟨r, rfl, rfl, by tauto, ?_, ?_⟩
        · subst h; by_cases hm : r.MemberId = r.Leader <;> simp [hm]
        · subst h; by_cases hm : r.MemberId = r.Leader <;> simp [hm]

theorem scanEndpoint_succeeded {idx : Nat} {st : ScanState} {p : Probe} {r : StatusResponse}
    (hs : p.status = .ok r) (hc : p.close = none) :
    (st.leaderId ≠ 0 ∧ st.leaderId ≠ r.Leader →
      scanEndpoint idx st p = .error (.leaderNotSame st.leaderId r.Leader)) ∧
    (¬ (st.leaderId ≠ 0 ∧ st.leaderId ≠ r.Leader) →
      ∃ st1, scanEndpoint idx st p = .ok st1) := by
  unfold scanEndpoint
  rw [hs, hc]
  constructor
  · intro h; simp only []; rw [if_pos h]
  · intro h; simp only []; rw [if_neg h]; exact ⟨_, rfl⟩

theorem Probe.succeeded_iff (p : Probe) (h : p.succeeded = true) :
    ∃ r, p.status = .ok r ∧ p.close = none := by
  unfold Probe.succeeded at h
  cases hs : p.status with
  | error e => rw [hs] at h; simp at h
  | ok r =>
    cases hc : p.close with
    | some e => rw [hs, hc] at h; simp at h
    | none => exact ⟨r, rfl, rfl⟩

theorem scanCluster_conflict (idx : Nat) (ps : List Probe) :
    ∀ st : ScanState, (∀ p ∈ ps, p.succeeded = true) →
    (∃ a b, a ≠ 0 ∧ a ≠ b ∧ scanCluster idx st ps = .error (.leaderNotSame a b)) ∨
    (∃ st1, scanCluster idx st ps = .ok st1 ∧
      (st.leaderId ≠ 0 → st1.leaderId = st.leaderId) ∧
      ∀ p ∈ ps, ∀ r, p.status = .ok r → r.Leader ≠ 0 → r.Leader = st1.leaderId) := by
  induction ps with
  | nil =>
    intro st _
    exact Or.inr ⟨st, rfl, fun _ => rfl, fun p hp => by simp at hp⟩
  | cons p ps ih =>
    intro st hok
    obtain ⟨r, hs, hc⟩ := Probe.succeeded_iff p (hok p (List.mem_cons_self _ _))
    have hps : ∀ q ∈ ps, q.succeeded = true := fun q hq => hok q (List.mem_cons_of_mem _ hq)
    by_cases hconf : st.leaderId ≠ 0 ∧ st.leaderId ≠ r.Leader
    · left
      refine ⟨st.leaderId, r.Leader, hconf.1, hconf.2, ?_⟩
      rw [scanCluster, (scanEndpoint_succeeded hs hc).1 hconf]
    · obtain ⟨st1, h1⟩ := (@scanEndpoint_succeeded idx st p r hs hc).2 hconf
      obtain ⟨r1, hs1, _, hprev, hlead, _⟩ := scanEndpoint_ok h1
      have hr : r1 = r := by rw [hs] at hs1; exact (Except.ok.inj hs1).symm
      subst hr
      have hstep : scanCluster idx st (p :: ps) = scanCluster idx st1 ps := by
        rw [scanCluster, h1]
      rcases ih st1 hps with ⟨a, b, ha, hab, he⟩ | ⟨st2, h2, hkeep, hall⟩
      · exact Or.inl ⟨a, b, ha, hab, by rw [hstep, he]⟩
      · right
        refine ⟨st2, by rw [hstep, h2], ?_, ?_⟩
        · intro hne
          have h3 : st.leaderId = r1.Leader := by
            rcases hprev with h | h
            · exact absurd h hne
            · exact h
          rw [hkeep (by rw [hlead, ← h3]; exact hne), hlead, h3]
        · intro q hq rq hsq hnz
          rcases List.mem_cons.mp hq with rfl | hq
          · have hrq : rq = r1 := by rw [hs] at hsq; exact (Except.ok.inj hsq).symm
            subst hrq
            rw [hkeep (by rw [hlead]; exact hnz), hlead]
          · exact hall q hq rq hsq hnz

theorem scanClusters_conflict (clusters : List (List Probe)) :
    ∀ (idx : Nat) (st : ScanState), (∀ p ∈ clusters.flatten, p.succeeded = true) →
    (∃ a b, a ≠ 0 ∧ a ≠ b ∧ scanClusters idx st clusters = .error (.leaderNotSame a b)) ∨
    (∃ st1, scanClusters idx st clusters = .ok st1 ∧
      (st.leaderId ≠ 0 → st1.leaderId = st.leaderId) ∧
      ∀ p ∈ clusters.flatten, ∀ r, p.status = .ok r → r.Leader ≠ 0 →
        r.Leader = st1.leaderId) := by
  induction clusters with
  | nil =>
    intro idx st _
    exact Or.inr ⟨st, rfl, fun _ => rfl, fun p hp => by simp at hp⟩
  | cons clr rest ih =>
    intro idx st hok
    have hclr : ∀ p ∈ clr, p.succeeded = true := fun p hp =>
      hok p (by simp only [List.flatten_cons, List.mem_append]; exact Or.inl hp)
    have hrest : ∀ p ∈ rest.flatten, p.succeeded = true := fun p hp =>
      hok p (by simp only [List.flatten_cons, List.mem_append]; exact Or.inr hp)
    rcases scanCluster_conflict idx clr { st with clusterIds := st.clusterIds.set idx [] } hclr
      with ⟨a, b, ha, hab, he⟩ | ⟨st1, h1, hkeep1, hall1⟩
    · exact Or.inl ⟨a, b, ha, hab, by rw [scanClusters, he]⟩
    · have hstep : scanClusters idx st (clr :: rest) = scanClusters (idx + 1) st1 rest := by
        rw [scanClusters, h1]
      rcases ih (idx + 1) st1 hrest with ⟨a, b, ha, hab, he⟩ | ⟨st2, h2, hkeep2, hall2⟩
      · exact Or.inl ⟨a, b, ha, hab, by rw [hstep, he]⟩
      · right
        refine ⟨st2, by rw [hstep, h2], ?_, ?_⟩
        · intro hne
          have h3 : st1.leaderId = st.leaderId := hkeep1 hne
          rw [hkeep2 (by rw [h3]; exact hne), h3]
        · intro q hq rq hsq hnz
          simp only [List.flatten_cons, List.mem_append] at hq
          rcases hq with hq | hq
          · have h4 := hall1 q hq rq hsq hnz
            rw [hkeep2 (by rw [← h4]; exact hnz), ← h4]
          · exact hall2 q hq rq hsq hnz

/-- C1: when every probe of the scan succeeds and two of the replies carry
different non-zero leader IDs, the scan panics with `leader not same`, and so
does the run before any requester or observer is started. -/
theorem scan_leader_conflict_panics (threads : Nat) (clusters : List (List Probe))
    (p1 p2 : Probe) (r1 r2 : StatusResponse)
    (hok : ∀ p ∈ clusters.flatten, p.succeeded = true)
    (hp1 : p1 ∈ clusters.flatten) (hp2 : p2 ∈ clusters.flatten)
    (hs1 : p1.status = .ok r1) (hs2 : p2.status = .ok r2)
    (hz1 : r1.Leader ≠ 0) (hz2 : r2.Leader ≠ 0) (hne : r1.Leader ≠ r2.Leader) :
    ∃ a b, a ≠ 0 ∧ a ≠ b ∧
      discoveryScan clusters = .error (.leaderNotSame a b) ∧
      spawnPhase threads clusters = .error (.leaderNotSame a b) := by
  rcases scanClusters_conflict clusters 0 (scanInit clusters.length) hok
    with ⟨a, b, ha, hab, he⟩ | ⟨st1, _, _, hall⟩
  · have hd : discoveryScan clusters = .error (.leaderNotSame a b) := by
      rw [discoveryScan, he]
    exact ⟨a, b, ha, hab, hd, by rw [spawnPhase, hd]⟩
  · exfalso
    apply hne
    rw [hall p1 hp1 r1 hs1 hz1, hall p2 hp2 r2 hs2 hz2]

/-- C1 at two clusters of one endpoint each, reporting leaders 5 and 7. -/
theorem scan_leader_conflict_panics_witness :
    ∃ a b, a ≠ 0 ∧ a ≠ b ∧
      discoveryScan [[⟨"a", .ok ⟨5, 5⟩, none⟩], [⟨"b", .ok ⟨7, 7⟩, none⟩]] =
        .error (.leaderNotSame a b) ∧
      spawnPhase 2 [[⟨"a", .ok ⟨5, 5⟩, none⟩], [⟨"b", .ok ⟨7, 7⟩, none⟩]] =
        .error (.leaderNotSame a b) :=
  scan_leader_conflict_panics 2 [[⟨"a", .ok ⟨5, 5⟩, none⟩], [⟨"b", .ok ⟨7, 7⟩, none⟩]]
    ⟨"a", .ok ⟨5, 5⟩, none⟩ ⟨"b", .ok ⟨7, 7⟩, none⟩ ⟨5, 5⟩ ⟨7, 7⟩
    (by simp [Probe.succeeded]) (by simp) (by simp) rfl rfl (by decide) (by decide) (by decide)

theorem scanCluster_leaderProbed (full : List (List Probe)) (idx : Nat) (clr : List Probe)
    (hclr : full[idx]? = some clr) (ps : List Probe) :
    ∀ st st2 : ScanState, (∀ p ∈ ps, p ∈ clr) →
    (∀ p ∈ ps, ∀ r, p.status = .ok r → ¬ (r.Leader = 0 ∧ r.MemberId = 0)) →
    (st.leaderClrIdx = -1 ∨ (st.leaderId ≠ 0 ∧ LeaderProbed full st)) →
    scanCluster idx st ps = .ok st2 →
    (st2.leaderClrIdx = -1 ∨ (st2.leaderId ≠ 0 ∧ LeaderProbed full st2)) := by
  induction ps with
  | nil =>
    intro st st2 _ _ hinv h
    rw [scanCluster] at h
    cases h
    exact hinv
  | cons p ps ih =>
    intro st st2 hsub hz hinv h
    rw [scanCluster] at h
    cases h1 : scanEndpoint idx st p with
    | error e => rw [h1] at h; simp at h
    | ok st1 =>
      rw [h1] at h
      simp only [] at h
      obtain ⟨r, hs, _, hprev, hlead, hcase⟩ := scanEndpoint_ok h1
      refine ih st1 st2 (fun q hq => hsub q (List.mem_cons_of_mem _ hq))
        (fun q hq => hz q (List.mem_cons_of_mem _ hq)) ?_ h
      rcases hcase with ⟨hm, hep, hidx⟩ | ⟨hm, hep, hidx⟩
      · right
        have hnz : r.Leader ≠ 0 := by
          intro h0
          exact hz p (List.mem_cons_self _ _) r hs ⟨h0, by rw [hm, h0]⟩
        refine ⟨by rw [hlead]; exact hnz, idx, clr, p, r, hidx, hclr,
          hsub p (List.mem_cons_self _ _), hep.symm, hs, by rw [hm, hlead], hlead.symm⟩
      · rcases hinv with hi | ⟨hnz, k, c, q, rq, hk, hc, hq, hqe, hqs, hqm, hql⟩
        · left; rw [hidx]; exact hi
        · right
          have h3 : st.leaderId = r.Leader := by
            rcases hprev with h0 | h0
            · exact absurd h0 hnz
            · exact h0
          have h4 : st1.leaderId = st.leaderId := by rw [hlead, h3]
          refine ⟨by rw [h4]; exact hnz, k, c, q, rq, by rw [hidx]; exact hk, hc, hq,
            by rw [hep]; exact hqe, hqs, by rw [h4]; exact hqm, by rw [h4]; exact hql⟩

theorem scanClusters_leaderProbed (full : List (List Probe)) (rest : List (List Probe)) :
    ∀ (idx : Nat) (st st2 : ScanState), full.drop idx = rest →
    (∀ p ∈ rest.flatten, ∀ r, p.status = .ok r → ¬ (r.Leader = 0 ∧ r.MemberId = 0)) →
    (st.leaderClrIdx = -1 ∨ (st.leaderId ≠ 0 ∧ LeaderProbed full st)) →
    scanClusters idx st rest = .ok st2 →
    (st2.leaderClrIdx = -1 ∨ (st2.leaderId ≠ 0 ∧ LeaderProbed full st2)) := by
  induction rest with
  | nil =>
    intro idx st st2 _ _ hinv h
    rw [scanClusters] at h
    cases h
    exact hinv
  | cons clr rest ih =>
    intro idx st st2 hdrop hz hinv h
    rw [scanClusters] at h
    have hclr : full[idx]? = some clr := by
      have h0 : (full.drop idx)[0]? = some clr := by rw [hdrop]; simp
      rw [List.getElem?_drop] at h0
      simpa using h0
    have hdrop2 : full.drop (idx + 1) = rest := by
      have : (full.drop idx).drop 1 = rest := by rw [hdrop]; rfl
      rw [List.drop_drop] at this
      rw [← this, Nat.add_comm]
    cases h1 : scanCluster idx { st with clusterIds := st.clusterIds.set idx [] } clr with
    | error e => rw [h1] at h; simp at h
    | ok st1 =>
      rw [h1] at h
      simp only [] at h
      have hinv0 : ({ st with clusterIds := st.clusterIds.set idx [] } : ScanState).leaderClrIdx
            = -1 ∨
          (({ st with clusterIds := st.clusterIds.set idx [] } : ScanState).leaderId ≠ 0 ∧
            LeaderProbed full { st with clusterIds := st.clusterIds.set idx [] }) := by
        rcases hinv with hi | ⟨hnz, hl⟩
        · exact Or.inl hi
        · exact Or.inr ⟨hnz, hl⟩
      have hinv1 := scanCluster_leaderProbed full idx clr hclr clr _ st1 (fun _ hp => hp)
        (fun q hq => hz q (by simp only [List.flatten_cons, List.mem_append]; exact Or.inl hq))
        hinv0 h1
      exact ih (idx + 1) st1 st2 hdrop2
        (fun q hq => hz q (by simp only [List.flatten_cons, List.mem_append]; exact Or.inr hq))
        hinv1 h

/-- C2, the code at the failing input: the scan of one cluster whose first
endpoint reports no leader and own ID 0 and whose second endpoint reports
leader 5 and own ID 7 completes with `leaderId = 5` and `leaderEp = "a"`, the
endpoint that reported own ID 0, so `leaderEp` is not the leader's endpoint.
Line 62 compares `MemberId` with `leaderId` also while `leaderId` is the
no-leader value 0. -/
theorem scan_leaderEp_not_leader :
    discoveryScan [[⟨"a", .ok ⟨0, 0⟩, none⟩, ⟨"b", .ok ⟨5, 7⟩, none⟩]] =
      .ok { clusterIds := [[0, 7]], leaderId := 5, leaderEp := "a", leaderClrIdx := 0 } ∧
    ¬ LeaderProbed [[⟨"a", .ok ⟨0, 0⟩, none⟩, ⟨"b", .ok ⟨5, 7⟩, none⟩]]
      { clusterIds := [[0, 7]], leaderId := 5, leaderEp := "a", leaderClrIdx := 0 } := by
  refine ⟨rfl, ?_⟩
  rintro ⟨k, clr, p, r, _, hclr, hp, _, hs, hm, _⟩
  have hk : k = 0 := by
    rcases k with _ | k
    · rfl
    · simp at hclr
  subst hk
  simp only [List.getElem?_cons_zero, Option.some.injEq] at hclr
  subst hclr
  simp only [List.mem_cons, List.mem_singleton, List.not_mem_nil, or_false] at hp
  rcases hp with rfl | rfl
  · simp only [Except.ok.injEq] at hs
    subst hs
    simp at hm
  · simp only [Except.ok.injEq] at hs
    subst hs
    simp at hm

/-- Outside the failing input of C2 the scan does what C2 says: when no reply
reports leader ID 0 together with own member ID 0 and the scan completes
without panicking, `leaderEp` is an endpoint of the cluster at `leaderClrIdx`
whose reply gave the final `leaderId` as its own member ID. -/
theorem scan_leaderEp_is_leader (clusters : List (List Probe)) (st : ScanState)
    (hz : ∀ p ∈ clusters.flatten, ∀ r, p.status = .ok r → ¬ (r.Leader = 0 ∧ r.MemberId = 0))
    (h : discoveryScan clusters = .ok st) :
    LeaderProbed clusters st := by
  unfold discoveryScan at h
  cases h1 : scanClusters 0 (scanInit clusters.length) clusters with
  | error e => rw [h1] at h; simp at h
  | ok st1 =>
    rw [h1] at h
    simp only [] at h
    by_cases hc : st1.leaderEp = "" ∨ st1.leaderClrIdx = -1
    · rw [if_pos hc] at h; simp at h
    · rw [if_neg hc] at h
      have hst : st1 = st := Except.ok.inj h
      have := scanClusters_leaderProbed clusters clusters 0 (scanInit clusters.length) st1
        (List.drop_zero _) hz (Or.inl rfl) h1
      rcases this with hi | ⟨_, hl⟩
      · exact absurd (Or.inr hi) hc
      · rw [← hst]; exact hl

/-- The scan of one cluster of two endpoints, the second being the leader 5,
ends with that endpoint as `leaderEp`. -/
theorem scan_leaderEp_is_leader_witness :
    discoveryScan [[⟨"a", .ok ⟨5, 3⟩, none⟩, ⟨"b", .ok ⟨5, 5⟩, none⟩]] =
      .ok { clusterIds := [[3, 5]], leaderId := 5, leaderEp := "b", leaderClrIdx := 0 } ∧
    LeaderProbed [[⟨"a", .ok ⟨5, 3⟩, none⟩, ⟨"b", .ok ⟨5, 5⟩, none⟩]]
      { clusterIds := [[3, 5]], leaderId := 5, leaderEp := "b", leaderClrIdx := 0 } :=
  ⟨rfl, scan_leaderEp_is_leader [[⟨"a", .ok ⟨5, 3⟩, none⟩, ⟨"b", .ok ⟨5, 5⟩, none⟩]] _
    (by
      intro p hp r hs
      simp only [List.flatten_cons, List.flatten_nil, List.append_nil, List.mem_cons,
        List.mem_singleton, List.not_mem_nil, or_false] at hp
      rcases hp with rfl | rfl
      · simp only [Except.ok.injEq] at hs; subst hs; simp
      · simp only [Except.ok.injEq] at hs; subst hs; simp)
    rfl⟩

end AddPerformance
